import Mathlib

/-!
Verification of the synkronus provider registry, provider factory, and
storage aggregation service, shallowly embedded from the Go sources.

Embedding conventions:
* Go `time.Time` / `time.Duration` values are modelled as integer nanosecond
  counts; Go maps as association lists; nilable Go pointers and nilable Go
  function values as `Option`.
* The process-wide registry map `providerRegistry` (a `map[string]ProviderRegistration`
  guarded by a mutex) is modelled as an explicit association list threaded
  through the registry operations; `RegisterProvider` only ever inserts fresh
  keys, so association-list insertion coincides with Go map insertion.
* A Go function that can `panic` is modelled with `Except String` whose
  `error` carries the panic message.
* The aggregation service's goroutine fan-out (one goroutine per provider,
  joined by a `sync.WaitGroup`, results appended under a `sync.Mutex`) is
  modelled by running the per-provider task body sequentially in input order;
  the Go scheduler may permute the order of the merged buckets and of the
  log entries, but not their contents.
* `context.Context` and `*slog.Logger` arguments are operationally inert for
  the verified properties: the context is passed through unchanged and the
  logger is write-only.  Log writes are modelled as an explicit event trace,
  which also records client resolution and client release (`Close`) so that
  resource-handling claims can be stated.
-/

namespace Synkronus

/-! ## Configuration (internal/config/config.go) -/

structure GCPConfig where
  project : String
deriving DecidableEq, Repr

structure AWSConfig where
  region : String
deriving DecidableEq, Repr

structure Config where
  gcp : Option GCPConfig
  aws : Option AWSConfig
deriving DecidableEq, Repr

/-! ## Domain records (pkg/storage/model.go, pkg/common/provider.go) -/

/-- pkg/common: `type Provider string`. -/
abbrev ProviderId := String

structure Autoclass where
  Enabled : Bool
deriving DecidableEq, Repr

structure Versioning where
  Enabled : Bool
deriving DecidableEq, Repr

structure Logging where
  LogBucket : String
  LogObjectPrefix : String
deriving DecidableEq, Repr

structure SoftDeletePolicy where
  RetentionDuration : Int
deriving DecidableEq, Repr

structure UniformBucketLevelAccess where
  Enabled : Bool
deriving DecidableEq, Repr

structure Encryption where
  KmsKeyName : String
  Algorithm : String
deriving DecidableEq, Repr

structure RetentionPolicy where
  RetentionPeriod : Int
  IsLocked : Bool
deriving DecidableEq, Repr

structure IAMBinding where
  Role : String
  Principals : List String
deriving DecidableEq, Repr

structure IAMPolicy where
  Bindings : List IAMBinding
  HasConditions : Bool
deriving DecidableEq, Repr

structure ACLRule where
  Entity : String
  Role : String
deriving DecidableEq, Repr

structure LifecycleCondition where
  Age : Int
  CreatedBefore : Int
  MatchesStorageClass : List String
  NumNewerVersions : Int
deriving DecidableEq, Repr

structure LifecycleRule where
  Action : String
  Condition : LifecycleCondition
deriving DecidableEq, Repr

structure Bucket where
  Name : String
  Provider : ProviderId
  Location : String
  LocationType : String
  StorageClass : String
  CreatedAt : Int
  UpdatedAt : Int
  UsageBytes : Int
  RequesterPays : Bool
  Labels : List (String × String)
  Autoclass : Option Autoclass
  IAMPolicy : Option IAMPolicy
  ACLs : List ACLRule
  LifecycleRules : List LifecycleRule
  Logging : Option Logging
  Versioning : Option Versioning
  SoftDeletePolicy : Option SoftDeletePolicy
  UniformBucketLevelAccess : Option UniformBucketLevelAccess
  PublicAccessPrevention : String
  Encryption : Option Encryption
  RetentionPolicy : Option RetentionPolicy
deriving DecidableEq, Repr

structure StorageObject where
  Key : String
  Bucket : String
  Provider : ProviderId
  Size : Int
  StorageClass : String
  LastModified : Int
  CreatedAt : Int
  UpdatedAt : Int
  ETag : String
  ContentType : String
  ContentEncoding : String
  ContentLanguage : String
  CacheControl : String
  ContentDisposition : String
  MD5Hash : String
  CRC32C : String
  Generation : Int
  Metageneration : Int
  Encryption : Option Encryption
  Metadata : List (String × String)
deriving DecidableEq, Repr

structure ObjectList where
  BucketName : String
  PrefixQuery : String
  Objects : List StorageObject
  CommonPrefixes : List String
deriving DecidableEq, Repr

/-! ## Storage capability contract (pkg/storage/storage.go)

A live client is modelled as a record of response functions: the behaviour
each capability call would exhibit.  `Close` is not a field; the service
layer records client release in its event trace instead. -/

structure StorageClient where
  listBuckets : Except String (List Bucket)
  describeBucket : String → Except String Bucket
  createBucket : String → String → Option String
  deleteBucket : String → Option String
  listObjects : String → String → Except String ObjectList
  describeObject : String → String → Except String StorageObject
  providerNameOf : ProviderId

/-! ## Provider registry (internal/provider/registry/registry.go)

`ProviderRegistration` is the struct a backend hands to `RegisterProvider`;
its two function fields are nilable in Go, hence `Option` here.
`RegistryEntry` is the shape of an entry actually stored in the registry:
`RegisterProvider` aborts unless both functions are present, so stored
entries always carry total functions. -/

structure ProviderRegistration where
  ConfigCheck : Option (Config → Bool)
  Initializer : Option (Config → Except String StorageClient)

structure RegistryEntry where
  ConfigCheck : Config → Bool
  Initializer : Config → Except String StorageClient

/-- The process-wide `providerRegistry` map, keyed by lowercased provider
name.  Association-list representation; keys are unique in every reachable
state because `RegisterProvider` refuses duplicates. -/
abbrev Registry := List (String × RegistryEntry)

/-- Go `strings.ToLower`, modelled characterwise over the string's char
list (kernel-computable, unlike `String.toLower`, and extensionally the
same function on the ASCII provider names this program handles). -/
def lowerString (s : String) : String :=
  ⟨s.data.map Char.toLower⟩

/-- Go `strings.TrimSpace`: strip leading and trailing whitespace. -/
def trimString (s : String) : String :=
  ⟨((s.data.dropWhile Char.isWhitespace).reverse.dropWhile Char.isWhitespace).reverse⟩

/-- `RegisterProvider` (registry.go).  A `panic` is modelled as `Except.error`
carrying the panic message. -/
def RegisterProvider (name : String) (registration : ProviderRegistration)
    (reg : Registry) : Except String Registry :=
  let normalizedName := lowerString name
  if (reg.lookup normalizedName).isSome then
    .error ("provider " ++ normalizedName ++ " already registered")
  else
    match registration.ConfigCheck with
    | none => .error ("provider " ++ normalizedName ++ " registration missing ConfigCheck")
    | some check =>
      match registration.Initializer with
      | none => .error ("provider " ++ normalizedName ++ " registration missing Initializer")
      | some ini => .ok (reg ++ [(normalizedName, RegistryEntry.mk check ini)])

/-- Lexicographic string sort, modelling Go `sort.Strings`. -/
def sortStrings (l : List String) : List String :=
  l.insertionSort (fun a b => a ≤ b)

/-- `GetSupportedProviders` (registry.go): every registered name, sorted. -/
def GetSupportedProviders (reg : Registry) : List String :=
  sortStrings (reg.map Prod.fst)

/-- `IsSupported` (registry.go): case-insensitive membership test. -/
def IsSupported (reg : Registry) (providerName : String) : Bool :=
  (reg.lookup (lowerString providerName)).isSome

/-- `GetRegistration` (registry.go): case-insensitive retrieval. -/
def GetRegistration (reg : Registry) (providerName : String) : Option RegistryEntry :=
  reg.lookup (lowerString providerName)

/-- `GetAllRegistrations` (registry.go): a copy of the whole map. -/
def GetAllRegistrations (reg : Registry) : Registry :=
  reg

/-! ## Provider factory (internal/provider/factory/factory.go) -/

structure Factory where
  cfg : Config

/-- The factory's structured resolution errors.  In Go these are values built
with `fmt.Errorf`; the constructors carry exactly the data those messages
interpolate, and `ResolveError.message` renders the Go message text. -/
inductive ResolveError where
  | unsupportedProvider (requested : String) (supported : List String)
  | notConfigured (provider : String)
  | initializationFailed (provider : String) (cause : String)
deriving DecidableEq, Repr

/-- Go `fmt` rendering of a string slice: `[a b c]`. -/
def goSliceFormat (l : List String) : String :=
  "[" ++ String.intercalate " " l ++ "]"

def ResolveError.message : ResolveError → String
  | .unsupportedProvider requested supported =>
      "unsupported provider: " ++ requested ++ ". Supported providers are: "
        ++ goSliceFormat supported
  | .notConfigured provider =>
      "provider \x27" ++ provider ++ "\x27 is not configured. Use \x27synkronus config set "
        ++ provider ++ ".<key> <value>\x27 (e.g., \x27gcp.project\x27 or \x27aws.region\x27)"
  | .initializationFailed provider cause =>
      "failed to initialize provider " ++ provider ++ ": " ++ cause

/-- `Factory.GetConfiguredProviders` (factory.go): registered names whose
configuration predicate holds, sorted. -/
def Factory.GetConfiguredProviders (f : Factory) (reg : Registry) : List String :=
  sortStrings (((GetAllRegistrations reg).filter
    (fun kv => kv.2.ConfigCheck f.cfg)).map Prod.fst)

/-- `Factory.IsConfigured` (factory.go). -/
def Factory.IsConfigured (f : Factory) (reg : Registry) (providerName : String) : Bool :=
  match GetRegistration reg providerName with
  | none => false
  | some registration => registration.ConfigCheck f.cfg

/-- `Factory.GetStorageProvider` (factory.go): resolve a provider name to a
live client or a precise error. -/
def Factory.GetStorageProvider (f : Factory) (reg : Registry) (providerName : String) :
    Except ResolveError StorageClient :=
  let normalizedName := lowerString providerName
  match GetRegistration reg normalizedName with
  | none => .error (.unsupportedProvider providerName (GetSupportedProviders reg))
  | some registration =>
    if registration.ConfigCheck f.cfg then
      match registration.Initializer f.cfg with
      | .error err => .error (.initializationFailed normalizedName err)
      | .ok client => .ok client
    else
      .error (.notConfigured normalizedName)

/-! ## Aggregation service (internal/service/storage_service.go)

The service obtains clients only through `Factory.GetStorageProvider`;
following the Go dependency seam, the embedded service is parametrised by a
resolution environment `resolve : String → Except String StorageClient`
(the factory partially applied to its configuration and the registry, with
the structured error rendered to its message).  Service claims therefore
quantify over every provider behaviour.

An `Event` trace records, in order, what the service writes to the
diagnostic sink (`slog` calls, with the literal Go message) and how it
handles client lifecycle (`resolvedClient` when `GetStorageProvider`
returns a client, `closedClient` when `client.Close()` runs). -/

inductive Event where
  | debugLog (msg : String)
  | errorLog (msg : String) (provider : String) (err : String)
  | resolvedClient (provider : String)
  | closedClient (provider : String)
deriving DecidableEq, Repr

namespace StorageService

/-- Body of the per-provider goroutine inside `ListAllBuckets` (lines 41-63):
resolve the client, call `ListBuckets`, log any failure, append successful
results; `defer client.Close()` runs on both post-resolve paths. -/
def listProviderTask (resolve : String → Except String StorageClient)
    (pName : String) : List Bucket × List Event :=
  match resolve pName with
  | .error err =>
      ([], [.errorLog "Failed to initialize provider client" pName err])
  | .ok client =>
    match client.listBuckets with
    | .error err =>
        ([], [.resolvedClient pName,
              .errorLog "Failed to list buckets from provider" pName err,
              .closedClient pName])
    | .ok buckets =>
        (buckets, [.resolvedClient pName,
                   .debugLog "Successfully fetched buckets",
                   .closedClient pName])

/-- `StorageService.ListAllBuckets`: empty input returns `(nil, nil)`
immediately; otherwise one task per name, joined by the `WaitGroup`, with
every append to `allBuckets` serialized by the mutex.  The goroutine bodies
are run sequentially in input order (see the embedding conventions above).
Result: `(allBuckets, returned error, event trace)`. -/
def ListAllBuckets (resolve : String → Except String StorageClient)
    (providerNames : List String) : List Bucket × Option String × List Event :=
  match providerNames with
  | [] => ([], none, [])
  | _ :: _ =>
    let results := providerNames.map (listProviderTask resolve)
    ((results.map Prod.fst).flatten,
     none,
     .debugLog "Starting ListAllBuckets operation" :: (results.map Prod.snd).flatten)

/-- `StorageService.getStorageClient` (lines 160-167): resolve and wrap any
error as `error initializing provider: ...` after logging it. -/
def getStorageClient (resolve : String → Except String StorageClient)
    (providerName : String) : Except String StorageClient × List Event :=
  match resolve providerName with
  | .error err =>
      (.error ("error initializing provider: " ++ err),
       [.errorLog "Failed to initialize provider" providerName err])
  | .ok client => (.ok client, [.resolvedClient providerName])

/-- `StorageService.DescribeBucket` (lines 72-87): thin pass-through to one
provider; `defer client.Close()` runs on both post-resolve paths. -/
def DescribeBucket (resolve : String → Except String StorageClient)
    (bucketName providerName : String) : Except String Bucket × List Event :=
  let start := Event.debugLog "Starting DescribeBucket operation"
  match getStorageClient resolve providerName with
  | (.error err, evs) => (.error err, start :: evs)
  | (.ok client, evs) =>
    match client.describeBucket bucketName with
    | .error err =>
        (.error err,
         start :: evs ++
           [.errorLog "Failed to describe bucket" providerName err,
            .closedClient providerName])
    | .ok bucket =>
        (.ok bucket, start :: evs ++ [.closedClient providerName])

end StorageService

/-! ## Provider-name validation helper (cmd/synkronus/storage_cmd.go)

`resolveProvidersForList` validates the caller-supplied `--providers` list
before the aggregation fan-out. -/

inductive ListResolveError where
  | notConfiguredRequest (provider : String)
  | unsupportedRequest (invalid : List String) (supported : List String)
deriving DecidableEq, Repr

/-- Go `strings.ToLower(strings.TrimSpace(p))`. -/
def normalizeName (p : String) : String :=
  lowerString (trimString p)

/-- The loop body of `resolveProvidersForList`, with the `seen` set and the
`validatedProviders` / `invalidProviders` accumulators made explicit. -/
def resolveLoop (f : Factory) (reg : Registry) :
    List String → List String → List String → List String →
    Except ListResolveError (List String)
  | [], _, validated, invalid =>
      if invalid.isEmpty then .ok validated
      else .error (.unsupportedRequest invalid (GetSupportedProviders reg))
  | p :: rest, seen, validated, invalid =>
      let q := normalizeName p
      if seen.contains q then
        resolveLoop f reg rest seen validated invalid
      else if IsSupported reg q then
        if Factory.IsConfigured f reg q then
          resolveLoop f reg rest (q :: seen) (validated ++ [q]) invalid
        else
          .error (.notConfiguredRequest q)
      else
        resolveLoop f reg rest (q :: seen) validated (invalid ++ [q])

/-- `resolveProvidersForList` (storage_cmd.go lines 243-276). -/
def resolveProvidersForList (requestedProviders : List String)
    (f : Factory) (reg : Registry) : Except ListResolveError (List String) :=
  if requestedProviders.isEmpty then
    .ok (Factory.GetConfiguredProviders f reg)
  else
    resolveLoop f reg requestedProviders [] [] []

/-- The `list-buckets` command body (storage_cmd.go lines 44-70) restricted
to the part the claims are about: validation, then — only on validation
success — the call to `ListAllBuckets`.  The boolean records whether
`ListAllBuckets` was invoked. -/
def runListBucketsCmd (resolve : String → Except String StorageClient)
    (f : Factory) (reg : Registry) (requestedProviders : List String) :
    Except ListResolveError (List Bucket) × Bool :=
  match resolveProvidersForList requestedProviders f reg with
  | .error e => (.error e, false)
  | .ok providersToQuery =>
      (.ok (StorageService.ListAllBuckets resolve providersToQuery).1, true)

/-! ## Derived classifiers and specification-level helpers -/

/-- A provider's resolve-and-list attempt succeeds end to end. -/
def providerSucceeds (resolve : String → Except String StorageClient)
    (p : String) : Bool :=
  match resolve p with
  | .error _ => false
  | .ok client =>
    match client.listBuckets with
    | .error _ => false
    | .ok _ => true

/-- The buckets a provider contributes when its resolve-and-list succeeds. -/
def providerBuckets (resolve : String → Except String StorageClient)
    (p : String) : List Bucket :=
  match resolve p with
  | .error _ => []
  | .ok client =>
    match client.listBuckets with
    | .error _ => []
    | .ok buckets => buckets

/-- Specification-level description of the name sequence the validation loop
examines: first occurrences of normalized names not already in `seen`, in
input order (deduplicated, lowercased, trimmed). -/
def freshNorm (seen : List String) : List String → List String
  | [] => []
  | p :: rest =>
      let q := normalizeName p
      if seen.contains q then freshNorm seen rest
      else q :: freshNorm (q :: seen) rest

/-- The first name in the list that is supported but not configured. -/
def firstUnconfigured (f : Factory) (reg : Registry) : List String → Option String
  | [] => none
  | q :: qs =>
      if IsSupported reg q && !(Factory.IsConfigured f reg q) then some q
      else firstUnconfigured f reg qs

/-- A sequence of `RegisterProvider` calls (the self-registration performed
by each linked-in backend at process start), stopping at the first abort. -/
def applyRegistrations :
    List (String × ProviderRegistration) → Registry → Except String Registry
  | [], reg => .ok reg
  | (n, r) :: rest, reg =>
      match RegisterProvider n r reg with
      | .error msg => .error msg
      | .ok next => applyRegistrations rest next

/-! ## Concrete fixtures used by the witness theorems -/

/-- A bucket record with the given identity and every optional sub-record
absent (usage unknown, per the -1 sentinel). -/
def mkBucket (name provider : String) : Bucket :=
  ⟨name, provider, "", "", "", 0, 0, -1, false, [], none, none, [], [],
   none, none, none, none, "", none, none⟩

/-- A well-behaved backend client returning the given buckets. -/
def okClient (provider : String) (buckets : List Bucket) : StorageClient where
  listBuckets := .ok buckets
  describeBucket := fun _ => .error "bucket not found"
  createBucket := fun _ _ => none
  deleteBucket := fun _ => none
  listObjects := fun _ _ => .error "bucket not found"
  describeObject := fun _ _ => .error "object not found"
  providerNameOf := provider

/-- `isConfigured` from pkg/storage/gcp/client.go:
`cfg.GCP != nil && cfg.GCP.Project != ""`. -/
def gcpIsConfigured (cfg : Config) : Bool :=
  match cfg.gcp with
  | none => false
  | some g => g.project != ""

/-- A registry entry for the gcp backend; the constructor is a stand-in
backend (concrete SDK clients are outside the verified core). -/
def exampleEntry : RegistryEntry where
  ConfigCheck := gcpIsConfigured
  Initializer := fun _ => .ok (okClient "gcp" [])

def exampleRegistry : Registry :=
  [("gcp", exampleEntry)]

/-- The gcp self-registration struct as a backend would pass it to
`RegisterProvider` (both function fields present). -/
def exampleRegistration : ProviderRegistration where
  ConfigCheck := some gcpIsConfigured
  Initializer := some (fun _ => .ok (okClient "gcp" []))

/-- An entry for the aws backend, mirroring its registration in
pkg/storage/aws (`cfg.AWS != nil && cfg.AWS.Region != ""`-style check). -/
def awsEntry : RegistryEntry where
  ConfigCheck := fun cfg =>
    match cfg.aws with
    | none => false
    | some a => a.region != ""
  Initializer := fun _ => .ok (okClient "aws" [])

/-- A second backend registration for exercising registration sequences. -/
def awsExampleRegistration : ProviderRegistration where
  ConfigCheck := some awsEntry.ConfigCheck
  Initializer := some awsEntry.Initializer

def twoProviderRegistry : Registry :=
  [("gcp", exampleEntry), ("aws", awsEntry)]

def gcpConfig : Config where
  gcp := some ⟨"my-project"⟩
  aws := none

def gcpFactory : Factory where
  cfg := gcpConfig

/-- A resolution environment with one succeeding provider (gcp, two
buckets) and every other name failing with an operational error. -/
def exampleResolve : String → Except String StorageClient := fun p =>
  if p == "gcp" then .ok (okClient "gcp" [mkBucket "alpha" "gcp", mkBucket "beta" "gcp"])
  else .error "simulated operational error"

def emptyConfig : Config where
  gcp := none
  aws := none

def exampleFactory : Factory where
  cfg := emptyConfig

/-! ## Theorems -/

/-- C4: for the empty set of provider names, `ListAllBuckets` returns
immediately with an empty bucket collection and no error. -/
theorem ListAllBuckets_empty (resolve : String → Except String StorageClient) :
    StorageService.ListAllBuckets resolve [] = ([], none, []) :=
  rfl

/-- C10: for every input list of provider names — whatever way each
provider's resolution or listing behaves — `ListAllBuckets` returns a nil
error; per-provider failures never surface as returned error metadata. -/
theorem ListAllBuckets_never_errors (resolve : String → Except String StorageClient)
    (providerNames : List String) :
    (StorageService.ListAllBuckets resolve providerNames).2.1 = none := by
  cases providerNames <;> rfl

/-- C2: `Factory.GetStorageProvider` follows the specified decision
procedure after case-folding the name: unregistered names yield an
`unsupportedProvider` error carrying the full supported-name list; a
registered name whose configuration predicate rejects the factory's config
yields a `notConfigured` error naming the provider; otherwise the
registration's constructor runs, its failure wrapped as
`initializationFailed` with the cause attached, its success returned. -/
theorem GetStorageProvider_spec (f : Factory) (reg : Registry) (providerName : String) :
    (GetRegistration reg (lowerString providerName) = none →
       Factory.GetStorageProvider f reg providerName
         = .error (.unsupportedProvider providerName (GetSupportedProviders reg))) ∧
    (∀ registration, GetRegistration reg (lowerString providerName) = some registration →
       (registration.ConfigCheck f.cfg = false →
          Factory.GetStorageProvider f reg providerName
            = .error (.notConfigured (lowerString providerName))) ∧
       (registration.ConfigCheck f.cfg = true →
          (∀ cause, registration.Initializer f.cfg = .error cause →
             Factory.GetStorageProvider f reg providerName
               = .error (.initializationFailed (lowerString providerName) cause)) ∧
          (∀ client, registration.Initializer f.cfg = .ok client →
             Factory.GetStorageProvider f reg providerName = .ok client))) := by
  constructor
  · intro hnone
    simp [Factory.GetStorageProvider, hnone]
  · intro registration hsome
    constructor
    · intro hcfg
      simp [Factory.GetStorageProvider, hsome, hcfg]
    · intro hcfg
      constructor
      · intro cause hini
        simp [Factory.GetStorageProvider, hsome, hcfg, hini]
      · intro client hini
        simp [Factory.GetStorageProvider, hsome, hcfg, hini]

/-- Witness for C2 at a concrete unregistered name. -/
theorem GetStorageProvider_spec_witness :
    GetRegistration exampleRegistry (lowerString "azure") = none ∧
    Factory.GetStorageProvider exampleFactory exampleRegistry "azure"
      = .error (.unsupportedProvider "azure" (GetSupportedProviders exampleRegistry)) :=
  ⟨rfl, (GetStorageProvider_spec exampleFactory exampleRegistry "azure").1 rfl⟩

/-! ## Association-list lookup facts for the registry -/

theorem lookup_append (l₁ l₂ : Registry) (k : String) :
    (l₁ ++ l₂).lookup k = (l₁.lookup k).or (l₂.lookup k) := by
  induction l₁ with
  | nil => simp [List.lookup]
  | cons kv rest ih =>
    obtain ⟨key, entry⟩ := kv
    cases hk : k == key with
    | true => simp [List.lookup, hk]
    | false =>
      simp only [List.cons_append, List.lookup, hk]
      exact ih

theorem lookup_singleton_self (k : String) (e : RegistryEntry) :
    ([(k, e)] : Registry).lookup k = some e := by
  simp [List.lookup]

theorem lookup_eq_some_iff_mem (reg : Registry) (n : String) (e : RegistryEntry)
    (hnodup : (reg.map Prod.fst).Nodup) :
    reg.lookup n = some e ↔ (n, e) ∈ reg := by
  induction reg with
  | nil => simp [List.lookup]
  | cons kv rest ih =>
    obtain ⟨key, entry⟩ := kv
    simp only [List.map_cons, List.nodup_cons] at hnodup
    by_cases hk : n = key
    · subst hk
      simp only [List.lookup, beq_self_eq_true, List.mem_cons]
      constructor
      · intro h
        cases h
        left
        rfl
      · intro h
        rcases h with h | h
        · cases h
          rfl
        · exfalso
          exact hnodup.1 (List.mem_map.mpr ⟨(n, e), h, rfl⟩)
    · have hk' : (n == key) = false := by
        simp [hk]
      simp only [List.lookup, hk', List.mem_cons]
      rw [ih hnodup.2]
      constructor
      · intro h
        right
        exact h
      · intro h
        rcases h with h | h
        · exfalso
          apply hk
          exact congrArg Prod.fst h
        · exact h

/-- C5: `RegisterProvider` aborts (panics) iff the case-folded name is
already present in the registry, or the registration's configuration
predicate is absent, or its client constructor is absent; otherwise it adds
the registration under the case-folded name and leaves every existing entry
unchanged. -/
theorem RegisterProvider_spec (name : String) (registration : ProviderRegistration)
    (reg : Registry) :
    ((∃ msg, RegisterProvider name registration reg = .error msg) ↔
       ((reg.lookup (lowerString name)).isSome = true
        ∨ registration.ConfigCheck = none ∨ registration.Initializer = none)) ∧
    (∀ next, RegisterProvider name registration reg = .ok next →
       ∃ check ini, registration.ConfigCheck = some check
         ∧ registration.Initializer = some ini
         ∧ next = reg ++ [(lowerString name, RegistryEntry.mk check ini)]
         ∧ (∀ k, (reg.lookup k).isSome = true → next.lookup k = reg.lookup k)) := by
  constructor
  · by_cases hdup : (reg.lookup (lowerString name)).isSome = true
    · simp [RegisterProvider, hdup]
    · cases hcheck : registration.ConfigCheck with
      | none => simp [RegisterProvider, hdup, hcheck]
      | some check =>
        cases hini : registration.Initializer with
        | none => simp [RegisterProvider, hdup, hcheck, hini]
        | some ini => simp [RegisterProvider, hdup, hcheck, hini]
  · intro next hnext
    by_cases hdup : (reg.lookup (lowerString name)).isSome = true
    · simp [RegisterProvider, hdup] at hnext
    · cases hcheck : registration.ConfigCheck with
      | none => simp [RegisterProvider, hdup, hcheck] at hnext
      | some check =>
        cases hini : registration.Initializer with
        | none => simp [RegisterProvider, hdup, hcheck, hini] at hnext
        | some ini =>
          simp only [RegisterProvider, hdup, hcheck, hini, Bool.false_eq_true,
            if_false, Except.ok.injEq] at hnext
          refine ⟨check, ini, rfl, rfl, hnext.symm, ?_⟩
          intro k hk
          rw [← hnext, lookup_append]
          cases hsome : reg.lookup k with
          | none => rw [hsome] at hk; simp at hk
          | some e => simp [Option.or]

/-- Witness for C5: registering gcp into the empty registry succeeds and
stores the entry under the case-folded name. -/
theorem RegisterProvider_spec_witness :
    RegisterProvider "GCP" exampleRegistration [] = .ok [("gcp", exampleEntry)] ∧
    ∃ check ini, exampleRegistration.ConfigCheck = some check
      ∧ exampleRegistration.Initializer = some ini
      ∧ [("gcp", exampleEntry)] = ([] : Registry) ++ [(lowerString "GCP", RegistryEntry.mk check ini)] :=
  ⟨rfl, by
    have h := (RegisterProvider_spec "GCP" exampleRegistration []).2 [("gcp", exampleEntry)] rfl
    rcases h with ⟨check, ini, hc, hi, hn, _⟩
    exact ⟨check, ini, hc, hi, hn⟩⟩

theorem RegisterProvider_preserves_isSome (n : String) (r : ProviderRegistration)
    (reg next : Registry) (k : String)
    (hreg : RegisterProvider n r reg = .ok next)
    (hk : (reg.lookup k).isSome = true) :
    (next.lookup k).isSome = true := by
  rcases (RegisterProvider_spec n r reg).2 next hreg with ⟨c, i, _, _, _, hpres⟩
  rw [hpres k hk]
  exact hk

theorem applyRegistrations_preserves_isSome (k : String) :
    ∀ (ops : List (String × ProviderRegistration)) (reg final : Registry),
    applyRegistrations ops reg = .ok final →
    (reg.lookup k).isSome = true → (final.lookup k).isSome = true := by
  intro ops
  induction ops with
  | nil =>
    intro reg final h hk
    cases h
    exact hk
  | cons op rest ih =>
    intro reg final h hk
    obtain ⟨n, r⟩ := op
    unfold applyRegistrations at h
    cases hstep : RegisterProvider n r reg with
    | error msg => rw [hstep] at h; cases h
    | ok next =>
      rw [hstep] at h
      exact ih next final h (RegisterProvider_preserves_isSome n r reg next k hstep hk)

/-- C6: once a name is successfully registered, `IsSupported` holds for
every case variant of it and keeps holding across any further successful
sequence of registry operations — the registry is append-only. -/
theorem IsSupported_stable (n m : String) (r : ProviderRegistration)
    (reg next final : Registry)
    (ops : List (String × ProviderRegistration))
    (hcase : lowerString m = lowerString n)
    (hreg : RegisterProvider n r reg = .ok next)
    (hops : applyRegistrations ops next = .ok final) :
    IsSupported final m = true := by
  have h1 : (next.lookup (lowerString n)).isSome = true := by
    rcases (RegisterProvider_spec n r reg).2 next hreg with ⟨c, i, _, _, hn, _⟩
    subst hn
    rw [lookup_append]
    cases hr : reg.lookup (lowerString n) with
    | some e => simp [Option.or]
    | none => simp [Option.or, lookup_singleton_self]
  have h2 := applyRegistrations_preserves_isSome (lowerString n) ops next final hops h1
  unfold IsSupported
  rw [hcase]
  exact h2

/-- Witness for C6: gcp registered first, aws registered afterwards; the
upper-case variant of the first name is still supported. -/
theorem IsSupported_stable_witness :
    lowerString "GCP" = lowerString "gcp"
    ∧ RegisterProvider "gcp" exampleRegistration [] = .ok exampleRegistry
    ∧ applyRegistrations [("AWS", awsExampleRegistration)] exampleRegistry
        = .ok twoProviderRegistry
    ∧ IsSupported twoProviderRegistry "GCP" = true :=
  ⟨rfl, rfl, rfl,
   IsSupported_stable "gcp" "GCP" exampleRegistration [] exampleRegistry
     twoProviderRegistry [("AWS", awsExampleRegistration)] rfl rfl rfl⟩

theorem mem_sortStrings (l : List String) (n : String) :
    n ∈ sortStrings l ↔ n ∈ l :=
  (List.perm_insertionSort _ l).mem_iff

theorem sorted_sortStrings (l : List String) :
    List.Sorted (fun a b => a ≤ b) (sortStrings l) :=
  List.sorted_insertionSort _ l

/-- C7: `Factory.GetConfiguredProviders` returns a sorted list that is
exactly the subset of the registered names whose configuration predicate
accepts the factory's configuration; every configured name is supported. -/
theorem GetConfiguredProviders_spec (f : Factory) (reg : Registry)
    (hnodup : (reg.map Prod.fst).Nodup) :
    List.Sorted (fun a b => a ≤ b) (Factory.GetConfiguredProviders f reg) ∧
    (∀ n, n ∈ Factory.GetConfiguredProviders f reg ↔
       (n ∈ GetSupportedProviders reg ∧
        ∃ entry, reg.lookup n = some entry ∧ entry.ConfigCheck f.cfg = true)) ∧
    (∀ n, n ∈ Factory.GetConfiguredProviders f reg → n ∈ GetSupportedProviders reg) := by
  have key : ∀ n, n ∈ Factory.GetConfiguredProviders f reg ↔
      ∃ entry, reg.lookup n = some entry ∧ entry.ConfigCheck f.cfg = true := by
    intro n
    unfold Factory.GetConfiguredProviders GetAllRegistrations
    rw [mem_sortStrings]
    constructor
    · intro h
      rcases List.mem_map.mp h with ⟨⟨k1, k2⟩, hkv, hfst⟩
      rcases List.mem_filter.mp hkv with ⟨hmem, hcheck⟩
      cases hfst
      exact ⟨k2, (lookup_eq_some_iff_mem reg k1 k2 hnodup).mpr hmem, hcheck⟩
    · intro h
      rcases h with ⟨entry, hlook, hcheck⟩
      exact List.mem_map.mpr ⟨(n, entry),
        List.mem_filter.mpr ⟨(lookup_eq_some_iff_mem reg n entry hnodup).mp hlook, hcheck⟩, rfl⟩
  have supp : ∀ n, (∃ entry, reg.lookup n = some entry ∧ entry.ConfigCheck f.cfg = true) →
      n ∈ GetSupportedProviders reg := by
    intro n h
    rcases h with ⟨entry, hlook, _⟩
    unfold GetSupportedProviders
    rw [mem_sortStrings]
    exact List.mem_map.mpr ⟨(n, entry),
      (lookup_eq_some_iff_mem reg n entry hnodup).mp hlook, rfl⟩
  refine ⟨sorted_sortStrings _, fun n => ?_, fun n hn => ?_⟩
  · rw [key n]
    exact ⟨fun h => ⟨supp n h, h⟩, fun h => h.2⟩
  · exact supp n ((key n).mp hn)

/-- Witness for C7 on a two-provider registry with only gcp configured. -/
theorem GetConfiguredProviders_spec_witness :
    (twoProviderRegistry.map Prod.fst).Nodup ∧
    Factory.GetConfiguredProviders gcpFactory twoProviderRegistry = ["gcp"] ∧
    List.Sorted (fun a b => a ≤ b)
      (Factory.GetConfiguredProviders gcpFactory twoProviderRegistry) :=
  ⟨by decide, rfl,
   (GetConfiguredProviders_spec gcpFactory twoProviderRegistry (by decide)).1⟩

/-! ## Aggregation-service lemmas -/

theorem listProviderTask_fst (resolve : String → Except String StorageClient)
    (p : String) :
    (StorageService.listProviderTask resolve p).1
      = if providerSucceeds resolve p then providerBuckets resolve p else [] := by
  unfold StorageService.listProviderTask providerSucceeds providerBuckets
  cases hres : resolve p with
  | error e => simp
  | ok client =>
    cases hlb : client.listBuckets with
    | error e => simp [hlb]
    | ok buckets => simp [hlb]

theorem buckets_merge (resolve : String → Except String StorageClient) :
    ∀ names : List String,
    ((names.map (StorageService.listProviderTask resolve)).map Prod.fst).flatten
      = (names.filter (fun p => providerSucceeds resolve p)).flatMap
          (providerBuckets resolve) := by
  intro names
  induction names with
  | nil => rfl
  | cons p rest ih =>
    simp only [List.map_cons, List.flatten_cons, ih, List.filter_cons]
    rw [listProviderTask_fst]
    by_cases h : providerSucceeds resolve p
    · simp [h, List.flatMap_cons]
    · simp [h]

theorem listProviderTask_logs_failure (resolve : String → Except String StorageClient)
    (q : String) (h : providerSucceeds resolve q = false) :
    ∃ msg err, Event.errorLog msg q err ∈ (StorageService.listProviderTask resolve q).2 := by
  unfold providerSucceeds at h
  unfold StorageService.listProviderTask
  cases hres : resolve q with
  | error e => exact ⟨"Failed to initialize provider client", e, by simp⟩
  | ok client =>
    cases hlb : client.listBuckets with
    | error e => exact ⟨"Failed to list buckets from provider", e, by simp [hlb]⟩
    | ok buckets => simp [hres, hlb] at h

/-- C1: on a non-empty provider set where some providers' resolve-and-list
succeeds and others fail, `ListAllBuckets` returns exactly the merged
buckets of the succeeding providers with no overall error, and each failing
provider's error is written to the diagnostic sink. -/
theorem ListAllBuckets_partial_failure (resolve : String → Except String StorageClient)
    (providerNames : List String)
    (hne : providerNames ≠ [])
    (hsucc : ∃ p ∈ providerNames, providerSucceeds resolve p = true)
    (hfail : ∃ q ∈ providerNames, providerSucceeds resolve q = false) :
    (StorageService.ListAllBuckets resolve providerNames).2.1 = none ∧
    (StorageService.ListAllBuckets resolve providerNames).1
      = (providerNames.filter (fun p => providerSucceeds resolve p)).flatMap
          (providerBuckets resolve) ∧
    (∀ q ∈ providerNames, providerSucceeds resolve q = false →
       ∃ msg err, Event.errorLog msg q err
         ∈ (StorageService.ListAllBuckets resolve providerNames).2.2) := by
  cases providerNames with
  | nil => cases hne rfl
  | cons p rest =>
    refine ⟨rfl, buckets_merge resolve (p :: rest), ?_⟩
    intro q hq hfq
    rcases listProviderTask_logs_failure resolve q hfq with ⟨msg, err, hmem⟩
    refine ⟨msg, err, ?_⟩
    apply List.mem_cons_of_mem
    apply List.mem_flatten_of_mem _ hmem
    exact List.mem_map.mpr ⟨StorageService.listProviderTask resolve q,
      List.mem_map.mpr ⟨q, hq, rfl⟩, rfl⟩

/-- Witness for C1: provider gcp succeeds with two buckets, provider aws
fails; the call returns exactly the two buckets with a nil error. -/
theorem ListAllBuckets_partial_failure_witness :
    (["gcp", "aws"] : List String) ≠ [] ∧
    (StorageService.ListAllBuckets exampleResolve ["gcp", "aws"]).1
      = [mkBucket "alpha" "gcp", mkBucket "beta" "gcp"] ∧
    (StorageService.ListAllBuckets exampleResolve ["gcp", "aws"]).2.1 = none := by
  have h := ListAllBuckets_partial_failure exampleResolve ["gcp", "aws"]
    (by decide) ⟨"gcp", by decide, by decide⟩ ⟨"aws", by decide, by decide⟩
  exact ⟨by decide, h.2.1.trans (by decide), h.1⟩

/-! ## Client-release accounting -/

theorem listProviderTask_close_count (resolve : String → Except String StorageClient)
    (q x : String) :
    (StorageService.listProviderTask resolve q).2.count (Event.closedClient x)
      = (StorageService.listProviderTask resolve q).2.count (Event.resolvedClient x) := by
  unfold StorageService.listProviderTask
  by_cases hx : x = q
  · subst hx
    cases hres : resolve x with
    | error e => simp [List.count_cons, List.count_nil]
    | ok client =>
      cases hlb : client.listBuckets with
      | error e => simp [hlb, List.count_cons, List.count_nil]
      | ok buckets => simp [hlb, List.count_cons, List.count_nil]
  · cases hres : resolve q with
    | error e => simp [List.count_cons, List.count_nil, hx]
    | ok client =>
      cases hlb : client.listBuckets with
      | error e => simp [hlb, List.count_cons, List.count_nil, hx]
      | ok buckets => simp [hlb, List.count_cons, List.count_nil, hx]

theorem listProviderTask_close_of_resolved (resolve : String → Except String StorageClient)
    (q p : String) (c : StorageClient) (hres : resolve p = .ok c) :
    (StorageService.listProviderTask resolve q).2.count (Event.closedClient p)
      = if p = q then 1 else 0 := by
  unfold StorageService.listProviderTask
  by_cases hx : p = q
  · subst hx
    rw [hres]
    cases hlb : c.listBuckets with
    | error e => simp [hlb, List.count_cons, List.count_nil]
    | ok buckets => simp [hlb, List.count_cons, List.count_nil]
  · cases hq : resolve q with
    | error e => simp [List.count_cons, List.count_nil, hx]
    | ok client =>
      cases hlb : client.listBuckets with
      | error e => simp [hlb, List.count_cons, List.count_nil, hx]
      | ok buckets => simp [hlb, List.count_cons, List.count_nil, hx]

theorem task_trace_close_count (resolve : String → Except String StorageClient)
    (x : String) :
    ∀ names : List String,
    (((names.map (StorageService.listProviderTask resolve)).map Prod.snd).flatten).count
        (Event.closedClient x)
      = (((names.map (StorageService.listProviderTask resolve)).map Prod.snd).flatten).count
        (Event.resolvedClient x) := by
  intro names
  induction names with
  | nil => rfl
  | cons p rest ih =>
    simp only [List.map_cons, List.flatten_cons, List.count_append]
    rw [listProviderTask_close_count, ih]

theorem task_trace_close_total (resolve : String → Except String StorageClient)
    (p : String) (c : StorageClient) (hres : resolve p = .ok c) :
    ∀ names : List String,
    (((names.map (StorageService.listProviderTask resolve)).map Prod.snd).flatten).count
        (Event.closedClient p)
      = names.count p := by
  intro names
  induction names with
  | nil => rfl
  | cons q rest ih =>
    simp only [List.map_cons, List.flatten_cons, List.count_append]
    rw [listProviderTask_close_of_resolved resolve q p c hres, ih, List.count_cons]
    by_cases hx : p = q
    · simp [hx]
      omega
    · simp [hx, Ne.symm hx]

/-- C8: in `ListAllBuckets` (per provider task) and in `DescribeBucket`,
every successful `GetStorageProvider` resolution is matched by exactly one
`Close` of that client, on every exit path; a resolved client is never left
unreleased. -/
theorem client_release_spec (resolve : String → Except String StorageClient)
    (providerNames : List String) (bucketName providerName x : String) :
    ((StorageService.ListAllBuckets resolve providerNames).2.2.count (Event.closedClient x)
       = (StorageService.ListAllBuckets resolve providerNames).2.2.count (Event.resolvedClient x)) ∧
    (∀ c, resolve x = .ok c →
       (StorageService.ListAllBuckets resolve providerNames).2.2.count (Event.closedClient x)
         = providerNames.count x) ∧
    ((StorageService.DescribeBucket resolve bucketName providerName).2.count (Event.closedClient x)
       = (StorageService.DescribeBucket resolve bucketName providerName).2.count (Event.resolvedClient x)) ∧
    (∀ c, resolve providerName = .ok c →
       (StorageService.DescribeBucket resolve bucketName providerName).2.count
         (Event.closedClient providerName) = 1) := by
  refine ⟨?_, ?_, ?_, ?_⟩
  · cases providerNames with
    | nil => rfl
    | cons p rest =>
      show (Event.debugLog _ :: _).count _ = (Event.debugLog _ :: _).count _
      rw [List.count_cons, List.count_cons, task_trace_close_count]
      simp
  · intro c hc
    cases providerNames with
    | nil => rfl
    | cons p rest =>
      show (Event.debugLog _ :: _).count _ = _
      rw [List.count_cons, task_trace_close_total resolve x c hc]
      simp
  · unfold StorageService.DescribeBucket StorageService.getStorageClient
    by_cases hx : x = providerName
    · subst hx
      cases hres : resolve x with
      | error e => simp [List.count_cons, List.count_nil]
      | ok client =>
        cases hdb : client.describeBucket bucketName with
        | error e => simp [hdb, List.count_cons, List.count_nil]
        | ok bucket => simp [hdb, List.count_cons, List.count_nil]
    · cases hres : resolve providerName with
      | error e => simp [List.count_cons, List.count_nil, hx]
      | ok client =>
        cases hdb : client.describeBucket bucketName with
        | error e => simp [hdb, List.count_cons, List.count_nil, hx]
        | ok bucket => simp [hdb, List.count_cons, List.count_nil, hx]
  · intro c hc
    unfold StorageService.DescribeBucket StorageService.getStorageClient
    rw [hc]
    cases hdb : c.describeBucket bucketName with
    | error e => simp [hdb, List.count_cons, List.count_nil]
    | ok bucket => simp [hdb, List.count_cons, List.count_nil]

/-- Witness for C8: with the example environment, `DescribeBucket` on the
successfully resolving provider closes its client exactly once. -/
theorem client_release_spec_witness :
    exampleResolve "gcp" = .ok (okClient "gcp" [mkBucket "alpha" "gcp", mkBucket "beta" "gcp"]) ∧
    (StorageService.DescribeBucket exampleResolve "b" "gcp").2.count
      (Event.closedClient "gcp") = 1 :=
  ⟨rfl,
   (client_release_spec exampleResolve ["gcp"] "b" "gcp" "gcp").2.2.2
     (okClient "gcp" [mkBucket "alpha" "gcp", mkBucket "beta" "gcp"]) rfl⟩

/-! ## Validation-helper characterization -/

theorem resolveLoop_eq (f : Factory) (reg : Registry) :
    ∀ (rest seen validated invalid : List String),
    resolveLoop f reg rest seen validated invalid =
      match firstUnconfigured f reg (freshNorm seen rest) with
      | some q => .error (.notConfiguredRequest q)
      | none =>
        if (invalid ++ (freshNorm seen rest).filter (fun q => !(IsSupported reg q))).isEmpty then
          .ok (validated ++ (freshNorm seen rest).filter
            (fun q => IsSupported reg q && Factory.IsConfigured f reg q))
        else
          .error (.unsupportedRequest
            (invalid ++ (freshNorm seen rest).filter (fun q => !(IsSupported reg q)))
            (GetSupportedProviders reg)) := by
  intro rest
  induction rest with
  | nil =>
    intro seen validated invalid
    simp [resolveLoop, freshNorm, firstUnconfigured]
  | cons p rest ih =>
    intro seen validated invalid
    by_cases hseen : seen.contains (normalizeName p)
    · show resolveLoop f reg (p :: rest) seen validated invalid = _
      rw [resolveLoop]
      rw [freshNorm]
      simp only [hseen, if_true]
      exact ih seen validated invalid
    · rw [resolveLoop, freshNorm]
      simp only [hseen, Bool.false_eq_true, if_false]
      by_cases hsup : IsSupported reg (normalizeName p)
      · by_cases hconf : Factory.IsConfigured f reg (normalizeName p)
        · simp only [hsup, hconf, if_true]
          rw [ih (normalizeName p :: seen) (validated ++ [normalizeName p]) invalid]
          rw [firstUnconfigured]
          simp only [hsup, hconf, Bool.not_true, Bool.and_false, Bool.false_eq_true, if_false]
          rw [List.filter_cons, List.filter_cons]
          simp only [hsup, hconf, Bool.not_true, Bool.and_self, Bool.false_eq_true, if_false,
            if_true, List.append_assoc, List.singleton_append]
        · simp only [hsup, hconf, Bool.false_eq_true, if_true, if_false]
          rw [firstUnconfigured]
          simp only [hsup, hconf, Bool.not_false, Bool.and_self, if_true]
      · simp only [hsup, Bool.false_eq_true, if_false]
        rw [ih (normalizeName p :: seen) validated (invalid ++ [normalizeName p])]
        rw [firstUnconfigured]
        simp only [hsup, Bool.false_and, Bool.false_eq_true, if_false]
        rw [List.filter_cons, List.filter_cons]
        simp only [hsup, Bool.not_false, Bool.false_and, Bool.false_eq_true, if_false,
          if_true, List.append_assoc, List.singleton_append]

deriving instance DecidableEq for Except

/-- Counterexample for C3: with gcp registered but unconfigured, the
request ["bogus", "gcp"] contains an unsupported name, yet the rejection is
the per-name NotConfigured error for gcp, not the aggregate unsupported
error listing bogus. -/
theorem resolveProvidersForList_mixed_counterexample :
    resolveProvidersForList ["bogus", "gcp"] exampleFactory exampleRegistry
      = .error (.notConfiguredRequest "gcp")
    ∧ resolveProvidersForList ["bogus", "gcp"] exampleFactory exampleRegistry
      ≠ .error (.unsupportedRequest ["bogus"] (GetSupportedProviders exampleRegistry)) := by
  constructor
  · rfl
  · decide

/-- C3 (amended): the validation helper returns the full configured list
when the request is empty; otherwise it examines the deduplicated,
lowercased, trimmed request names in order and (i) rejects with the
NotConfigured error for the first supported-but-unconfigured name whenever
one exists — even if unsupported names are also present — (ii) otherwise
rejects with one aggregate error listing every unsupported name when any
name is unregistered, and (iii) otherwise returns the deduplicated,
case-normalized validated subset; on any rejection `ListAllBuckets` is
never invoked. -/
theorem resolveProvidersForList_spec (resolve : String → Except String StorageClient)
    (f : Factory) (reg : Registry) (requestedProviders : List String) :
    (requestedProviders = [] →
       resolveProvidersForList requestedProviders f reg
         = .ok (Factory.GetConfiguredProviders f reg)) ∧
    (requestedProviders ≠ [] →
       resolveProvidersForList requestedProviders f reg =
         match firstUnconfigured f reg (freshNorm [] requestedProviders) with
         | some q => .error (.notConfiguredRequest q)
         | none =>
           if ((freshNorm [] requestedProviders).filter
                 (fun q => !(IsSupported reg q))).isEmpty then
             .ok ((freshNorm [] requestedProviders).filter
               (fun q => IsSupported reg q && Factory.IsConfigured f reg q))
           else
             .error (.unsupportedRequest
               ((freshNorm [] requestedProviders).filter (fun q => !(IsSupported reg q)))
               (GetSupportedProviders reg))) ∧
    (∀ e, resolveProvidersForList requestedProviders f reg = .error e →
       runListBucketsCmd resolve f reg requestedProviders = (.error e, false)) := by
  refine ⟨?_, ?_, ?_⟩
  · intro h
    subst h
    rfl
  · intro h
    unfold resolveProvidersForList
    rw [if_neg (by simpa using h)]
    rw [resolveLoop_eq]
    simp only [List.nil_append]
  · intro e he
    unfold runListBucketsCmd
    rw [he]

/-- Witness for the amended C3 at the counterexample input: the rejection
is returned and the aggregation fan-out is never invoked. -/
theorem resolveProvidersForList_spec_witness :
    resolveProvidersForList ["bogus", "gcp"] exampleFactory exampleRegistry
      = .error (.notConfiguredRequest "gcp") ∧
    runListBucketsCmd exampleResolve exampleFactory exampleRegistry ["bogus", "gcp"]
      = (.error (.notConfiguredRequest "gcp"), false) :=
  ⟨rfl,
   (resolveProvidersForList_spec exampleResolve exampleFactory exampleRegistry
     ["bogus", "gcp"]).2.2 (ListResolveError.notConfiguredRequest "gcp") rfl⟩

end Synkronus
